import Mathlib

/-!
Verification development for the ArrangingBlueprint asset-organization scripts
(`Content/Python/unreal_file_utils.py` and `Content/Python/organize_assets.py`).

The Python code is shallowly embedded: editor-mediated data sources (asset
registry, level actors, component properties, rename results) become explicit
environment records, Python strings become `String`, Python sets become
duplicate-free lists grown with a guarded insert, and each Python function
becomes a Lean function of the same shape.  Unbounded `while` search loops are
embedded with explicit fuel together with a proof that the chosen fuel always
suffices.
-/

/- ### Python string primitives used by the scripts -/

/-- Python `s.startswith(pre)`. -/
def pyStartsWith (s pre : String) : Bool :=
  pre.data.isPrefixOf s.data

/-- Python `s.endswith(suf)`. -/
def pyEndsWith (s suf : String) : Bool :=
  suf.data.isSuffixOf s.data

/-- Index of the first occurrence of `sub` in `l`, if any (char-list level). -/
def subIdx (sub : List Char) : List Char → Option Nat
  | [] => if sub.isPrefixOf [] then some 0 else none
  | c :: t => if sub.isPrefixOf (c :: t) then some 0 else (subIdx sub t).map (· + 1)

/-- Python `s.find(sub)`: index of first occurrence, `-1` when absent. -/
def pyFind (s sub : String) : Int :=
  match subIdx sub.data s.data with
  | some n => (n : Int)
  | none => -1

/-- Python `sub in s` (substring containment). -/
def pyContains (s sub : String) : Bool :=
  (subIdx sub.data s.data).isSome

/-- Python `s.split('.')[0]`: the part of `s` before the first dot. -/
def takeBeforeDot (s : String) : String :=
  String.mk (s.data.takeWhile (fun c => c ≠ '.'))

/-- Python `s.strip("/")`: drop leading and trailing slashes. -/
def stripSlashes (s : String) : String :=
  String.mk (((s.data.dropWhile (fun c => c = '/')).reverse.dropWhile
    (fun c => c = '/')).reverse)

/-- Decimal digit character, `digitChar 3 = '3'`. -/
def digitChar (n : Nat) : Char :=
  Char.ofNat (48 + n)

/-- Decimal digits of `n` (empty for `0`); `fuel`-structural so that the
kernel can evaluate it (`fuel ≥ n` suffices). -/
def decChars : Nat → Nat → List Char
  | 0, _ => []
  | fuel + 1, n => if n = 0 then [] else decChars fuel (n / 10) ++ [digitChar (n % 10)]

/-- Decimal string of `n`. -/
def decStr (n : Nat) : String :=
  if n = 0 then "0" else String.mk (decChars n n)

/-- Python `f"{n:03d}"`: decimal of `n` zero-padded to at least three digits. -/
def pad3 (n : Nat) : String :=
  if n < 10 then "00" ++ decStr n
  else if n < 100 then "0" ++ decStr n
  else decStr n

/-- Value of a decimal digit character. -/
def digitVal (c : Char) : Nat :=
  c.toNat - 48

/-- Numeric value of a list of decimal digit characters (leading zeros allowed). -/
def digitsVal (l : List Char) : Nat :=
  l.foldl (fun a c => 10 * a + digitVal c) 0

/- ### `unreal_file_utils.is_engine` -/

/-- Source `is_engine`: engine/script built-in path test. -/
def is_engine (path : String) : Bool :=
  if pyStartsWith path "/Engine" || pyStartsWith path "/Script" then true else false

/- ### Asset classes and `unreal_file_utils._get_asset_name` -/

/-- The `unreal` object classes the scripts discriminate on. -/
inductive AssetClass where
  | material
  | materialInstanceConstant
  | staticMesh
  | texture
  | skeletalMesh
  | soundBase
  | particleSystem
  | world
  | blueprint
  | other
deriving DecidableEq

/-- The `isinstance` cascade at the top of `_get_asset_name`: the
type-derived name prefix for an asset class. -/
def kindFor (cls : AssetClass) : String :=
  match cls with
  | .material => "M_"
  | .materialInstanceConstant => "MI_"
  | .staticMesh => "SM_"
  | .texture => "T_"
  | _ => ""

/-- Source `_get_asset_name`: normalize an asset name with the type-derived
prefix when `asset_name.find(kind)` is not `0`. -/
def _get_asset_name (cls : AssetClass) (asset_name : String) : String :=
  let kind := kindFor cls
  let index := pyFind asset_name kind
  if index ≠ 0 then kind ++ asset_name else asset_name

/- ### The mover's view of the editor (`EditorAssetLibrary`, `AssetTools`) -/

/-- One entry of the editor asset registry as the mover consumes it:
object path, bare asset name, and class. -/
structure AssetInfo where
  path : String
  name : String
  cls : AssetClass
deriving DecidableEq

/-- Editor state the mover reads: the existing assets, and whether
`AssetTools.rename_assets` reports success. -/
structure MoveEnv where
  assets : List AssetInfo
  renameOk : Bool
deriving DecidableEq

/-- `EditorAssetLibrary.find_asset_data`. -/
def findAssetData (env : MoveEnv) (p : String) : Option AssetInfo :=
  env.assets.find? (fun a => a.path == p)

/-- `EditorAssetLibrary.does_asset_exist`. -/
def doesAssetExist (env : MoveEnv) (p : String) : Bool :=
  env.assets.any (fun a => a.path == p)

/-- The name probed at loop counter `i` by both collision-resolution loops:
`base` first (`i = 1`), then `f"{base}_{i:03d}"`. -/
def probeName (base : String) (i : Nat) : String :=
  if i = 1 then base else base ++ "_" ++ pad3 i

/-- Loop body shared shape of source `_unique_name_in`: probe `name`; on
collision move to `f"{base}_{i+1:03d}"`.  `fuel` bounds the iteration count;
`unique_name_in_isSome` shows the fuel chosen at the entry point suffices. -/
def _unique_name_in_aux (taken : String → Bool) (base : String) :
    String → Nat → Nat → Option String
  | _, _, 0 => none
  | name, i, fuel + 1 =>
    if taken name then _unique_name_in_aux taken base (base ++ "_" ++ pad3 (i + 1)) (i + 1) fuel
    else some name

/-- Source `_unique_name_in`: first non-colliding name at `dst_pkg_path`. -/
def _unique_name_in (env : MoveEnv) (dst_pkg_path desired_name : String) : Option String :=
  _unique_name_in_aux (fun n => doesAssetExist env (dst_pkg_path ++ "/" ++ n))
    desired_name desired_name 1 (env.assets.length + 1)

/-- Loop body of source `_unique_move_path`: same probing loop, returning the
full object path `f"{dst_pkg_path}/{name}"` instead of the bare name. -/
def _unique_move_path_aux (exists? : String → Bool) (dst_pkg_path base : String) :
    String → Nat → Nat → Option String
  | _, _, 0 => none
  | name, i, fuel + 1 =>
    if exists? (dst_pkg_path ++ "/" ++ name) then
      _unique_move_path_aux exists? dst_pkg_path base (base ++ "_" ++ pad3 (i + 1)) (i + 1) fuel
    else some (dst_pkg_path ++ "/" ++ name)

/-- Source `_unique_move_path`: first non-colliding object path at `dst_pkg_path`. -/
def _unique_move_path (env : MoveEnv) (dst_pkg_path desired_name : String) : Option String :=
  _unique_move_path_aux (doesAssetExist env) dst_pkg_path desired_name desired_name 1
    (env.assets.length + 1)

/-- Observable outcome of one `_move_asset` call: its return value, whether
`rename_assets` was invoked, and the `(destination folder, new name)` pair
handed to `AssetRenameData` when it was. -/
structure MoveOutcome where
  result : Option String
  renamed : Bool
  renameTo : Option (String × String)
deriving DecidableEq

/-- Source `_move_asset`.  The final match arm is unreachable: both probing
loops always return within their fuel (`unique_name_in_isSome` below). -/
def _move_asset (env : MoveEnv) (obj_path dst_pkg_path : String) : MoveOutcome :=
  match findAssetData env obj_path with
  | none => ⟨none, false, none⟩
  | some ad =>
    if is_engine obj_path then ⟨none, false, none⟩
    else
      match _unique_move_path env dst_pkg_path ad.name,
            _unique_name_in env dst_pkg_path (_get_asset_name ad.cls ad.name) with
      | some new_obj_path, some new_name =>
        if env.renameOk then ⟨some new_obj_path, true, some (dst_pkg_path, new_name)⟩
        else ⟨none, true, some (dst_pkg_path, new_name)⟩
      | _, _ => ⟨none, false, none⟩

/- ### The collector's view of the editor -/

/-- A value read off a Blueprint class-default-object property: a direct
`unreal.World` reference (with its `get_path_name()`), a soft-path value
(anything exposing `asset_path_name`), or anything else. -/
inductive PropValue where
  | world (pathName : String)
  | softPath (assetPathName : String)
  | otherValue
deriving DecidableEq

/-- A Blueprint asset as the collector reads it: its `get_path_name()` and the
`dir(cdo)` property listing of its class default object.  `none` models a
missing `generated_class` or a missing CDO (both make the source return early
with no levels). -/
structure Blueprint where
  path : String
  cdo : Option (List (String × PropValue))
deriving DecidableEq

/-- A texture object placed in a level (only its `get_path_name()` matters). -/
structure TexObj where
  pathName : String
deriving DecidableEq

/-- A material(-instance) object: its path and the result of
`MaterialEditingLibrary.get_used_textures`. -/
structure MatObj where
  pathName : String
  usedTextures : List TexObj
deriving DecidableEq

/-- A static mesh object: its path and its `static_materials` slots
(`material_interface` can be null). -/
structure SMeshObj where
  pathName : String
  staticMaterials : List (Option MatObj)
deriving DecidableEq

/-- A skeletal mesh object: its path and its `materials` slots. -/
structure SkMeshObj where
  pathName : String
  materialSlots : List (Option MatObj)
deriving DecidableEq

/-- A sound object (only its `get_path_name()` matters). -/
structure SoundObj where
  pathName : String
deriving DecidableEq

/-- A particle- or Niagara-system object (only its `get_path_name()` matters). -/
structure ParticleObj where
  pathName : String
deriving DecidableEq

/-- An actor component as `_collect_from_actor` discriminates on it.  The
`isinstance` class tests of the source become constructors; absent editor
properties (falsy or raising) become `none`. -/
inductive Component where
  | staticMeshComp (static_mesh : Option SMeshObj)
  | skeletalMeshComp (skeletal_mesh_asset : Option SkMeshObj) (skeletal_mesh : Option SkMeshObj)
  | audioComp (sound : Option SoundObj)
  | particleSystemComp (template : Option ParticleObj)
  | niagaraComp (asset : Option ParticleObj)
  | otherComp
deriving DecidableEq

/-- A placed actor: its components, as returned by `get_components_by_class`. -/
structure Actor where
  components : List Component
deriving DecidableEq

/-- Editor state the collector and the orchestrator read: the asset registry
(package path to class), the Blueprint listing per folder, the actors of each
loadable level, and folder existence.  `moveOk` abstracts the truthiness of
the `_move_asset` call the orchestrator makes for a `(path, destination)`
pair, which depends on editor state not visible to the orchestrator. -/
structure Env where
  registry : List (String × AssetClass)
  blueprintsUnder : String → List Blueprint
  levelActors : String → Option (List Actor)
  dirExists : String → Bool
  moveOk : String → String → Bool

/-- Class of the asset at a package path: `find_asset_data` + `get_asset`. -/
def classOf (env : Env) (p : String) : Option AssetClass :=
  (env.registry.find? (fun e => e.1 == p)).map (fun e => e.2)

/-- Python `set.add` on a list kept duplicate-free. -/
def addSet {α : Type} [DecidableEq α] (l : List α) (x : α) : List α :=
  if x ∈ l then l else l ++ [x]

/-- Source `_find_levels_in_blueprint`: scan the CDO properties for direct
`unreal.World` references and for soft paths whose string passes the
`"World" in path or path.endswith("_C")` heuristic and whose target loads as
a `World`; engine paths are dropped, underscore-named properties skipped. -/
def _find_levels_in_blueprint (env : Env) (bp : Blueprint) : List String :=
  match bp.cdo with
  | none => []
  | some props =>
    props.foldl (fun levels pv =>
      if pyStartsWith pv.1 "_" then levels
      else
        match pv.2 with
        | .world pathName =>
          if is_engine (takeBeforeDot pathName) then levels
          else levels ++ [takeBeforeDot pathName]
        | .softPath path_str =>
          if (!(path_str == "") && pyContains path_str "World") || pyEndsWith path_str "_C" then
            match classOf env (takeBeforeDot path_str) with
            | some .world =>
              if is_engine (takeBeforeDot path_str) then levels
              else levels ++ [takeBeforeDot path_str]
            | _ => levels
          else levels
        | .otherValue => levels) []

/-- Source `_collect_textures`: used textures of a material, engine paths
dropped (the `isinstance(t, unreal.Texture)` test is enforced by typing). -/
def _collect_textures (m : MatObj) : List TexObj :=
  m.usedTextures.foldl (fun out t => if is_engine t.pathName then out else addSet out t) []

/-- Source `_static_mesh_materials`: non-null, non-engine material slots. -/
def _static_mesh_materials (sm : SMeshObj) : List MatObj :=
  sm.staticMaterials.foldl (fun out s =>
    match s with
    | some m => if is_engine m.pathName then out else out ++ [m]
    | none => out) []

/-- Source `_skeletal_mesh_materials`: non-null, non-engine material slots. -/
def _skeletal_mesh_materials (skm : SkMeshObj) : List MatObj :=
  skm.materialSlots.foldl (fun out s =>
    match s with
    | some m => if is_engine m.pathName then out else out ++ [m]
    | none => out) []

/-- The per-level collection sets (source `_collect_level_dependencies`
result dictionary; it holds editor objects, not paths). -/
structure LevelDeps where
  static_meshes : List SMeshObj
  skeletal_meshes : List SkMeshObj
  materials : List MatObj
  textures : List TexObj
  sounds : List SoundObj
  animations : List String
  particles : List ParticleObj
deriving DecidableEq

/-- The empty `_collect_level_dependencies` result dictionary. -/
def emptyDeps : LevelDeps := ⟨[], [], [], [], [], [], []⟩

/-- Source `_collect_from_static_mesh`: the mesh, its materials, and each
material's textures. -/
def _collect_from_static_mesh (sm : SMeshObj) (result : LevelDeps) : LevelDeps :=
  if is_engine sm.pathName then result
  else
    (_static_mesh_materials sm).foldl (fun acc mat =>
      (_collect_textures mat).foldl
        (fun a tex => { a with textures := addSet a.textures tex })
        { acc with materials := addSet acc.materials mat })
      { result with static_meshes := addSet result.static_meshes sm }

/-- Source `_collect_from_skeletal_mesh`: the mesh, its materials, and each
material's textures. -/
def _collect_from_skeletal_mesh (skm : SkMeshObj) (result : LevelDeps) : LevelDeps :=
  if is_engine skm.pathName then result
  else
    (_skeletal_mesh_materials skm).foldl (fun acc mat =>
      (_collect_textures mat).foldl
        (fun a tex => { a with textures := addSet a.textures tex })
        { acc with materials := addSet acc.materials mat })
      { result with skeletal_meshes := addSet result.skeletal_meshes skm }

/-- Source `_collect_from_actor`: walk one actor's components. -/
def _collect_from_actor (actor : Actor) (result : LevelDeps) : LevelDeps :=
  actor.components.foldl (fun res comp =>
    match comp with
    | .staticMeshComp sm =>
      match sm with
      | some sm => _collect_from_static_mesh sm res
      | none => res
    | .skeletalMeshComp skAsset skLegacy =>
      match (match skAsset with | some s => some s | none => skLegacy) with
      | some skm => _collect_from_skeletal_mesh skm res
      | none => res
    | .audioComp sound =>
      match sound with
      | some s => if is_engine s.pathName then res else { res with sounds := addSet res.sounds s }
      | none => res
    | .particleSystemComp template =>
      match template with
      | some ps => if is_engine ps.pathName then res else { res with particles := addSet res.particles ps }
      | none => res
    | .niagaraComp asset =>
      match asset with
      | some ns => if is_engine ns.pathName then res else { res with particles := addSet res.particles ns }
      | none => res
    | .otherComp => res) result

/-- Source `_collect_level_dependencies`: load the level, walk all actors.
A failing `load_level` yields the empty result. -/
def _collect_level_dependencies (env : Env) (level_path : String) : LevelDeps :=
  match env.levelActors level_path with
  | none => emptyDeps
  | some actors => actors.foldl (fun res a => _collect_from_actor a res) emptyDeps

/-- The nine category sets returned by `collect_all_from_folder` (paths). -/
structure CollectResult where
  blueprints : List String
  levels : List String
  static_meshes : List String
  skeletal_meshes : List String
  materials : List String
  textures : List String
  sounds : List String
  animations : List String
  particles : List String
deriving DecidableEq

/-- The freshly initialized `collect_all_from_folder` result dictionary. -/
def emptyCollect : CollectResult := ⟨[], [], [], [], [], [], [], [], []⟩

/-- Step 1 of `collect_all_from_folder`: record each non-engine Blueprint and
the levels found in its properties. -/
def collectBlueprintPhase (env : Env) (bps : List Blueprint) : CollectResult :=
  bps.foldl (fun result bp =>
    if is_engine bp.path then result
    else
      { result with
        blueprints := addSet result.blueprints bp.path
        levels := (_find_levels_in_blueprint env bp).foldl addSet result.levels })
    emptyCollect

/-- Step 2 inner body of `collect_all_from_folder`: fold one level's
dependency objects into the path sets. -/
def addDeps (result : CollectResult) (deps : LevelDeps) : CollectResult :=
  { result with
    static_meshes := deps.static_meshes.foldl (fun l o => addSet l o.pathName) result.static_meshes
    skeletal_meshes := deps.skeletal_meshes.foldl (fun l o => addSet l o.pathName) result.skeletal_meshes
    materials := deps.materials.foldl (fun l o => addSet l o.pathName) result.materials
    textures := deps.textures.foldl (fun l o => addSet l o.pathName) result.textures
    sounds := deps.sounds.foldl (fun l o => addSet l o.pathName) result.sounds
    particles := deps.particles.foldl (fun l o => addSet l o.pathName) result.particles }

/-- Step 2 of `collect_all_from_folder`: collect from every discovered level. -/
def collectLevelPhase (env : Env) (result : CollectResult) : CollectResult :=
  result.levels.foldl (fun acc level_path => addDeps acc (_collect_level_dependencies env level_path))
    result

/-- Source `collect_all_from_folder`. -/
def collect_all_from_folder (env : Env) (source_root : String) : CollectResult :=
  collectLevelPhase env (collectBlueprintPhase env (env.blueprintsUnder source_root))

/-- All paths appearing in any of the nine collected category sets. -/
def allPaths (r : CollectResult) : List String :=
  r.blueprints ++ r.levels ++ r.static_meshes ++ r.skeletal_meshes ++ r.materials ++
    r.textures ++ r.sounds ++ r.animations ++ r.particles

/- ### `organize_assets.run` -/

/-- Source `_pkg_join`: join non-empty parts with `/` after stripping
slashes, forcing a leading slash. -/
def _pkg_join (parts : List String) : String :=
  let p := String.intercalate "/" ((parts.filter (fun x => !(x == ""))).map stripSlashes)
  if pyStartsWith p "/" then p else "/" ++ p

/-- The eight move categories, in the order `run` issues them. -/
inductive AssetCategory where
  | textures
  | materials
  | staticMeshes
  | skeletalMeshes
  | sounds
  | particles
  | levels
  | blueprints
deriving DecidableEq

/-- Position of a category in the fixed move order of `run`. -/
def catRank (c : AssetCategory) : Nat :=
  match c with
  | .textures => 0
  | .materials => 1
  | .staticMeshes => 2
  | .skeletalMeshes => 3
  | .sounds => 4
  | .particles => 5
  | .levels => 6
  | .blueprints => 7

/-- One `_move_asset(path, dst)` invocation issued by `run`, tagged with the
category loop it came from. -/
structure MoveCall where
  cat : AssetCategory
  path : String
  dst : String
deriving DecidableEq

/-- Observable outcome of one `run` call: the returned count, whether
`_err` was used (invalid root), the directories `_ensure_dir` created, and
the ordered `_move_asset` invocations. -/
structure RunResult where
  ret : Nat
  errored : Bool
  dirsCreated : List String
  moves : List MoveCall
deriving DecidableEq

/-- Source `organize_assets.run`. -/
def run (env : Env) (source_root : String) : RunResult :=
  if !(pyStartsWith source_root "/Game") then ⟨0, true, [], []⟩
  else
    let collected := collect_all_from_folder env source_root
    if collected.blueprints.length = 0 then ⟨0, false, [], []⟩
    else
      let dest_root := source_root
      let dst_blueprints := _pkg_join [dest_root, "Blueprints"]
      let dst_meshes := _pkg_join [dest_root, "Meshes"]
      let dst_materials := _pkg_join [dest_root, "Materials"]
      let dst_textures := _pkg_join [dest_root, "Textures"]
      let dst_sounds := _pkg_join [dest_root, "Sounds"]
      let dst_animations := _pkg_join [dest_root, "Animations"]
      let dst_particles := _pkg_join [dest_root, "Particles"]
      let dirs := [dst_blueprints, dst_meshes, dst_materials, dst_textures,
        dst_sounds, dst_animations, dst_particles].filter (fun p => !(env.dirExists p))
      let moves :=
        collected.textures.map (fun p => MoveCall.mk .textures p dst_textures) ++
        collected.materials.map (fun p => MoveCall.mk .materials p dst_materials) ++
        collected.static_meshes.map (fun p => MoveCall.mk .staticMeshes p dst_meshes) ++
        collected.skeletal_meshes.map (fun p => MoveCall.mk .skeletalMeshes p dst_meshes) ++
        collected.sounds.map (fun p => MoveCall.mk .sounds p dst_sounds) ++
        collected.particles.map (fun p => MoveCall.mk .particles p dst_particles) ++
        collected.levels.map (fun p => MoveCall.mk .levels p dst_blueprints) ++
        collected.blueprints.map (fun p => MoveCall.mk .blueprints p dst_blueprints)
      let moved := (moves.filter (fun m => env.moveOk m.path m.dst)).length
      ⟨moved, false, dirs, moves⟩

/- ### Concrete editor states used as test inputs -/

/-- A Blueprint whose CDO holds one soft-path property naming a level asset
whose path string defeats the `"World"`/`"_C"` heuristic. -/
def bpVillage : Blueprint :=
  ⟨"/Game/Prj/BP_Main.BP_Main", some [("target_map", .softPath "/Game/Maps/Village.Village")]⟩

/-- Editor state where `/Game/Maps/Village` is a `World` asset referenced by
the soft-path property of `bpVillage`. -/
def envVillage : Env :=
  { registry := [("/Game/Maps/Village", .world)]
    blueprintsUnder := fun _ => [bpVillage]
    levelActors := fun _ => none
    dirExists := fun _ => false
    moveOk := fun _ _ => true }

/-- A Blueprint whose CDO holds one soft-path property naming a level asset
whose path string passes the `"World"` heuristic. -/
def bpWorldMap : Blueprint :=
  ⟨"/Game/Prj/BP_Main.BP_Main", some [("target_map", .softPath "/Game/Maps/WorldMap.WorldMap")]⟩

/-- Editor state where `/Game/Maps/WorldMap` is a `World` asset referenced by
the soft-path property of `bpWorldMap`. -/
def envWorldMap : Env :=
  { registry := [("/Game/Maps/WorldMap", .world)]
    blueprintsUnder := fun _ => [bpWorldMap]
    levelActors := fun _ => none
    dirExists := fun _ => false
    moveOk := fun _ _ => true }

/-- Mover-side editor state holding one texture named `Rock` (no `T_` yet)
with the rename call reporting success. -/
def envRock : MoveEnv :=
  ⟨[⟨"/Game/Src/Rock", "Rock", .texture⟩], true⟩

/-- The one-Blueprint / one-Level / one-actor scenario: mesh `M` references
material `X`, which references texture `Y`. -/
def actorScenario : Actor :=
  ⟨[.staticMeshComp (some ⟨"/Game/P/M", [some ⟨"/Game/P/X", [⟨"/Game/P/Y"⟩]⟩]⟩)]⟩

/-- The scenario Blueprint: one direct `World` property naming the level. -/
def bpScenario : Blueprint :=
  ⟨"/Game/P/BP1.BP1", some [("level_ref", .world "/Game/P/L1.L1")]⟩

/-- Editor state for the end-to-end scenario. -/
def envScenario : Env :=
  { registry := [("/Game/P/L1", .world)]
    blueprintsUnder := fun _ => [bpScenario]
    levelActors := fun p => if p == "/Game/P/L1" then some [actorScenario] else none
    dirExists := fun _ => false
    moveOk := fun _ _ => true }

/-- Editor state with no Blueprints anywhere. -/
def envNoBlueprints : Env :=
  { registry := []
    blueprintsUnder := fun _ => []
    levelActors := fun _ => none
    dirExists := fun _ => false
    moveOk := fun _ _ => true }

/-- Move-order comparison: the category issued earlier has lower rank. -/
def rankLe (a b : MoveCall) : Prop :=
  catRank a.cat ≤ catRank b.cat

/- ### Invariant predicates -/

/-- All paths in a list are project paths (neither `/Engine` nor `/Script`). -/
def pathsOk (l : List String) : Prop :=
  ∀ p ∈ l, is_engine p = false

/-- Every object in a per-level collection result has a non-engine path. -/
def depsOk (d : LevelDeps) : Prop :=
  (∀ o ∈ d.static_meshes, is_engine o.pathName = false) ∧
  (∀ o ∈ d.skeletal_meshes, is_engine o.pathName = false) ∧
  (∀ o ∈ d.materials, is_engine o.pathName = false) ∧
  (∀ o ∈ d.textures, is_engine o.pathName = false) ∧
  (∀ o ∈ d.sounds, is_engine o.pathName = false) ∧
  pathsOk d.animations ∧
  (∀ o ∈ d.particles, is_engine o.pathName = false)

/-- Every path in each of the nine collected category sets is a project path. -/
def collectOk (r : CollectResult) : Prop :=
  pathsOk r.blueprints ∧ pathsOk r.levels ∧ pathsOk r.static_meshes ∧
  pathsOk r.skeletal_meshes ∧ pathsOk r.materials ∧ pathsOk r.textures ∧
  pathsOk r.sounds ∧ pathsOk r.animations ∧ pathsOk r.particles

/- ### Helper lemmas: strings and decimal formatting -/

theorem string_data_inj {s t : String} (h : s.data = t.data) : s = t := by
  cases s; cases t; exact congrArg String.mk h

theorem str_append_cancel_left {a b c : String} (h : a ++ b = a ++ c) : b = c := by
  have hd := congrArg String.data h
  rw [String.data_append, String.data_append] at hd
  exact string_data_inj (List.append_cancel_left hd)

theorem digitVal_digitChar {n : Nat} (h : n < 10) : digitVal (digitChar n) = n := by
  interval_cases n <;> decide

theorem digitsVal_append_digit (l : List Char) (c : Char) :
    digitsVal (l ++ [c]) = 10 * digitsVal l + digitVal c := by
  unfold digitsVal
  rw [List.foldl_append]
  rfl

theorem digitsVal_cons_zero (l : List Char) : digitsVal ('0' :: l) = digitsVal l := by
  unfold digitsVal
  rw [List.foldl_cons]
  norm_num
  have h0 : digitVal '0' = 0 := by decide
  rw [h0]

theorem digitsVal_decChars : ∀ fuel n, n ≤ fuel → digitsVal (decChars fuel n) = n := by
  intro fuel
  induction fuel with
  | zero =>
    intro n h
    have : n = 0 := by omega
    subst this
    rfl
  | succ f ih =>
    intro n h
    by_cases h0 : n = 0
    · subst h0; rfl
    · rw [decChars, if_neg h0, digitsVal_append_digit]
      have hq : n / 10 ≤ f := by
        have : n / 10 < n := Nat.div_lt_self (Nat.pos_of_ne_zero h0) (by omega)
        omega
      rw [ih _ hq, digitVal_digitChar (Nat.mod_lt n (by omega))]
      exact Nat.div_add_mod n 10

theorem digitsVal_decStr (n : Nat) : digitsVal (decStr n).data = n := by
  by_cases h0 : n = 0
  · subst h0; decide
  · rw [decStr, if_neg h0]
    exact digitsVal_decChars n n (Nat.le_refl n)

theorem digitsVal_pad3 (n : Nat) : digitsVal (pad3 n).data = n := by
  unfold pad3
  by_cases h10 : n < 10
  · rw [if_pos h10, String.data_append]
    show digitsVal ('0' :: '0' :: (decStr n).data) = n
    rw [digitsVal_cons_zero, digitsVal_cons_zero]
    exact digitsVal_decStr n
  · rw [if_neg h10]
    by_cases h100 : n < 100
    · rw [if_pos h100, String.data_append]
      show digitsVal ('0' :: (decStr n).data) = n
      rw [digitsVal_cons_zero]
      exact digitsVal_decStr n
    · rw [if_neg h100]
      exact digitsVal_decStr n

theorem pad3_inj {m n : Nat} (h : pad3 m = pad3 n) : m = n := by
  have := congrArg (fun s => digitsVal (String.data s)) h
  simpa [digitsVal_pad3] using this

theorem probeName_inj (base : String) {i j : Nat} (hi : 1 ≤ i) (hj : 1 ≤ j)
    (h : probeName base i = probeName base j) : i = j := by
  unfold probeName at h
  by_cases e1 : i = 1 <;> by_cases e2 : j = 1
  · omega
  · rw [if_pos e1, if_neg e2] at h
    exfalso
    have hl := congrArg String.length h
    rw [String.length_append, String.length_append] at hl
    have : ("_" : String).length = 1 := rfl
    omega
  · rw [if_neg e1, if_pos e2] at h
    exfalso
    have hl := congrArg String.length h
    rw [String.length_append, String.length_append] at hl
    have : ("_" : String).length = 1 := rfl
    omega
  · rw [if_neg e1, if_neg e2] at h
    exact pad3_inj (str_append_cancel_left h)

/- ### Helper lemmas: the collision-resolution loops -/

theorem unique_name_aux_some (taken : String → Bool) (base : String) :
    ∀ fuel name i r, _unique_name_in_aux taken base name i fuel = some r →
      name = probeName base i → 1 ≤ i →
      taken r = false ∧ ∃ j, i ≤ j ∧ r = probeName base j := by
  intro fuel
  induction fuel with
  | zero =>
    intro name i r h
    simp [_unique_name_in_aux] at h
  | succ f ih =>
    intro name i r h hn hi
    rw [_unique_name_in_aux] at h
    by_cases ht : taken name
    · rw [if_pos ht] at h
      have hprobe : base ++ "_" ++ pad3 (i + 1) = probeName base (i + 1) := by
        unfold probeName
        rw [if_neg (by omega)]
      obtain ⟨h1, j, hj, hr⟩ := ih _ _ _ h hprobe (by omega)
      exact ⟨h1, j, by omega, hr⟩
    · rw [if_neg ht] at h
      have : name = r := by injection h
      subst this
      exact ⟨Bool.eq_false_iff.mpr ht, i, Nat.le_refl i, hn⟩

theorem unique_name_aux_none (taken : String → Bool) (base : String) :
    ∀ fuel name i, _unique_name_in_aux taken base name i fuel = none →
      name = probeName base i → 1 ≤ i →
      ∀ k, k < fuel → taken (probeName base (i + k)) = true := by
  intro fuel
  induction fuel with
  | zero =>
    intro name i _ _ _ k hk
    omega
  | succ f ih =>
    intro name i h hn hi k hk
    rw [_unique_name_in_aux] at h
    by_cases ht : taken name
    · rw [if_pos ht] at h
      have hprobe : base ++ "_" ++ pad3 (i + 1) = probeName base (i + 1) := by
        unfold probeName
        rw [if_neg (by omega)]
      match k with
      | 0 => rw [Nat.add_zero, ← hn]; exact ht
      | k' + 1 =>
        have := ih _ _ h hprobe (by omega) k' (by omega)
        have harith : i + 1 + k' = i + (k' + 1) := by omega
        rw [harith] at this
        exact this
    · rw [if_neg ht] at h
      cases h

theorem unique_name_in_isSome (env : MoveEnv) (dst d : String) :
    (_unique_name_in env dst d).isSome = true := by
  unfold _unique_name_in
  cases h : _unique_name_in_aux (fun n => doesAssetExist env (dst ++ "/" ++ n)) d d 1
      (env.assets.length + 1) with
  | some r => rfl
  | none =>
    exfalso
    have hall := unique_name_aux_none _ d _ d 1 h (by unfold probeName; rw [if_pos rfl])
      (Nat.le_refl 1)
    have hmem : ∀ k ∈ Finset.range (env.assets.length + 1),
        (dst ++ "/" ++ probeName d (1 + k)) ∈ (env.assets.map AssetInfo.path).toFinset := by
      intro k hk
      have := hall k (by simpa using hk)
      rw [List.mem_toFinset, List.mem_map]
      unfold doesAssetExist at this
      obtain ⟨a, ha, he⟩ := List.any_eq_true.mp this
      exact ⟨a, ha, beq_iff_eq.mp he⟩
    have hinj : Set.InjOn (fun k => dst ++ "/" ++ probeName d (1 + k))
        (Finset.range (env.assets.length + 1)) := by
      intro k _ k' _ he
      have hp : probeName d (1 + k) = probeName d (1 + k') := str_append_cancel_left he
      have := probeName_inj d (by omega) (by omega) hp
      omega
    have hcard := Finset.card_le_card_of_injOn _ hmem hinj
    rw [Finset.card_range] at hcard
    have hlen := List.toFinset_card_le (env.assets.map AssetInfo.path)
    rw [List.length_map] at hlen
    omega

theorem unique_name_in_spec (env : MoveEnv) (dst d r : String)
    (h : _unique_name_in env dst d = some r) :
    doesAssetExist env (dst ++ "/" ++ r) = false ∧
      (r = d ∨ ∃ j, 2 ≤ j ∧ r = d ++ "_" ++ pad3 j) := by
  unfold _unique_name_in at h
  obtain ⟨h1, j, hj, hr⟩ := unique_name_aux_some _ d _ d 1 r h
    (by unfold probeName; rw [if_pos rfl]) (Nat.le_refl 1)
  refine ⟨by simpa using h1, ?_⟩
  by_cases hj1 : j = 1
  · subst hj1
    left
    rw [hr]
    unfold probeName
    rw [if_pos rfl]
  · right
    refine ⟨j, by omega, ?_⟩
    rw [hr]
    unfold probeName
    rw [if_neg hj1]

/- ### Helper lemmas: folds and set-insertion -/

theorem foldl_preserve {α β : Type} (P : α → Prop) (step : α → β → α) (l : List β)
    (h : ∀ acc b, b ∈ l → P acc → P (step acc b)) :
    ∀ acc, P acc → P (List.foldl step acc l) := by
  induction l with
  | nil => intro acc hacc; exact hacc
  | cons a t ih =>
    intro acc hacc
    rw [List.foldl_cons]
    exact ih (fun acc' b hb => h acc' b (List.mem_cons_of_mem a hb))
      (step acc a) (h acc a (List.mem_cons_self a t) hacc)

theorem foldl_reach {α β : Type} (Q : α → Prop) (step : α → β → α) (l : List β) (b : β)
    (hpres : ∀ acc c, Q acc → Q (step acc c)) (hb : b ∈ l)
    (hset : ∀ acc, Q (step acc b)) :
    ∀ acc, Q (List.foldl step acc l) := by
  induction l with
  | nil => cases hb
  | cons a t ih =>
    intro acc
    rw [List.foldl_cons]
    rcases List.mem_cons.mp hb with rfl | hbt
    · exact foldl_preserve Q step t (fun acc' c _ => hpres acc' c) _ (hset acc)
    · exact ih hbt (step acc a)

theorem mem_addSet_self {α : Type} [DecidableEq α] (l : List α) (x : α) : x ∈ addSet l x := by
  unfold addSet
  by_cases h : x ∈ l
  · rw [if_pos h]; exact h
  · rw [if_neg h]; exact List.mem_append_right l (List.mem_singleton.mpr rfl)

theorem mem_addSet_of_mem {α : Type} [DecidableEq α] {l : List α} {x : α} (y : α)
    (h : x ∈ l) : x ∈ addSet l y := by
  unfold addSet
  by_cases hy : y ∈ l
  · rw [if_pos hy]; exact h
  · rw [if_neg hy]; exact List.mem_append_left _ h

theorem mem_of_mem_addSet {α : Type} [DecidableEq α] {l : List α} {x y : α}
    (h : x ∈ addSet l y) : x ∈ l ∨ x = y := by
  unfold addSet at h
  by_cases hy : y ∈ l
  · rw [if_pos hy] at h; exact Or.inl h
  · rw [if_neg hy] at h
    rcases List.mem_append.mp h with h' | h'
    · exact Or.inl h'
    · exact Or.inr (List.mem_singleton.mp h')

theorem mem_foldl_addSet {α : Type} [DecidableEq α] {l : List α} {x : α} (hx : x ∈ l) :
    ∀ acc, x ∈ List.foldl addSet acc l :=
  foldl_reach (fun s => x ∈ s) addSet l x (fun acc c h => mem_addSet_of_mem c h) hx
    (fun acc => mem_addSet_self acc x)

theorem allP_addSet {α : Type} [DecidableEq α] (P : α → Prop) {l : List α} {x : α}
    (hl : ∀ y ∈ l, P y) (hx : P x) : ∀ y ∈ addSet l x, P y := by
  intro y hy
  rcases mem_of_mem_addSet hy with h | rfl
  · exact hl y h
  · exact hx

theorem allP_foldl_addSet {α β : Type} [DecidableEq α] (P : α → Prop) (f : β → α)
    (objs : List β) (acc : List α) (hacc : ∀ y ∈ acc, P y) (hobjs : ∀ o ∈ objs, P (f o)) :
    ∀ y ∈ objs.foldl (fun l o => addSet l (f o)) acc, P y :=
  foldl_preserve (fun s => ∀ y ∈ s, P y) (fun l o => addSet l (f o)) objs
    (fun acc' b hb hacc' => allP_addSet P hacc' (hobjs b hb)) acc hacc

/- ### Helper lemmas: Python `find` and prefixes -/

theorem subIdx_zero_iff (sub l : List Char) : subIdx sub l = some 0 ↔ sub.isPrefixOf l = true := by
  cases l with
  | nil =>
    rw [subIdx]
    by_cases h : sub.isPrefixOf []
    · rw [if_pos h]; simp [h]
    · rw [if_neg h]; simp [h]
  | cons c t =>
    rw [subIdx]
    by_cases h : sub.isPrefixOf (c :: t)
    · rw [if_pos h]; simp [h]
    · rw [if_neg h]
      constructor
      · intro hcon
        rcases Option.map_eq_some'.mp hcon with ⟨n, _, hn⟩
        omega
      · intro hc
        exact absurd hc h

theorem pyFind_zero_iff (s pre : String) : pyFind s pre = 0 ↔ pyStartsWith s pre = true := by
  unfold pyFind pyStartsWith
  rw [← subIdx_zero_iff pre.data s.data]
  cases h : subIdx pre.data s.data with
  | some n =>
    show (n : Int) = 0 ↔ some n = some 0
    constructor
    · intro hn
      have : n = 0 := by exact_mod_cast hn
      subst this
      rfl
    · intro he
      have : n = 0 := by injection he
      subst this
      rfl
  | none =>
    show (-1 : Int) = 0 ↔ none = some 0
    constructor
    · intro hn
      exact absurd hn (by decide)
    · intro he
      cases he

theorem pyStartsWith_empty (s : String) : pyStartsWith s "" = true := by
  unfold pyStartsWith
  show List.isPrefixOf [] s.data = true
  rw [ List.isPrefixOf_iff_prefix]
  simp

theorem pyStartsWith_append (pre rest : String) : pyStartsWith (pre ++ rest) pre = true := by
  unfold pyStartsWith
  rw [String.data_append]
  exact List.isPrefixOf_iff_prefix.mpr (List.prefix_append pre.data rest.data)

/- ### Helper lemmas: collector invariants -/

theorem allP_append_single {α : Type} (P : α → Prop) {l : List α} {x : α}
    (hl : ∀ y ∈ l, P y) (hx : P x) : ∀ y ∈ l ++ [x], P y := by
  intro y hy
  rcases List.mem_append.mp hy with h | h
  · exact hl y h
  · rw [List.mem_singleton.mp h]
    exact hx

theorem collect_textures_ok (m : MatObj) :
    ∀ t ∈ _collect_textures m, is_engine t.pathName = false := by
  unfold _collect_textures
  refine foldl_preserve (fun out : List TexObj => ∀ t ∈ out, is_engine t.pathName = false) _ _ ?_ [] ?_
  · intro acc b _ hacc
    by_cases he : is_engine b.pathName = true
    · rw [if_pos he]; exact hacc
    · rw [if_neg he]
      exact allP_addSet _ hacc (Bool.eq_false_iff.mpr he)
  · intro t ht; cases ht

theorem static_mesh_materials_ok (sm : SMeshObj) :
    ∀ m ∈ _static_mesh_materials sm, is_engine m.pathName = false := by
  unfold _static_mesh_materials
  refine foldl_preserve (fun out : List MatObj => ∀ m ∈ out, is_engine m.pathName = false) _ _ ?_ [] ?_
  · intro acc b _ hacc
    cases b with
    | none => exact hacc
    | some m =>
      dsimp only
      by_cases he : is_engine m.pathName = true
      · rw [if_pos he]; exact hacc
      · rw [if_neg he]
        exact allP_append_single _ hacc (Bool.eq_false_iff.mpr he)
  · intro m hm; cases hm

theorem skeletal_mesh_materials_ok (skm : SkMeshObj) :
    ∀ m ∈ _skeletal_mesh_materials skm, is_engine m.pathName = false := by
  unfold _skeletal_mesh_materials
  refine foldl_preserve (fun out : List MatObj => ∀ m ∈ out, is_engine m.pathName = false) _ _ ?_ [] ?_
  · intro acc b _ hacc
    cases b with
    | none => exact hacc
    | some m =>
      dsimp only
      by_cases he : is_engine m.pathName = true
      · rw [if_pos he]; exact hacc
      · rw [if_neg he]
        exact allP_append_single _ hacc (Bool.eq_false_iff.mpr he)
  · intro m hm; cases hm

theorem depsOk_collect_from_static_mesh (sm : SMeshObj) (r : LevelDeps) (hr : depsOk r) :
    depsOk (_collect_from_static_mesh sm r) := by
  unfold _collect_from_static_mesh
  by_cases he : is_engine sm.pathName = true
  · rw [if_pos he]; exact hr
  · rw [if_neg he]
    refine foldl_preserve depsOk _ _ ?_ _ ?_
    · intro acc mat hmat hacc
      refine foldl_preserve depsOk _ _ ?_ _ ?_
      · intro a tex htex ha
        obtain ⟨h1, h2, h3, h4, h5, h6, h7⟩ := ha
        exact ⟨h1, h2, h3, allP_addSet _ h4 (collect_textures_ok mat tex htex), h5, h6, h7⟩
      · obtain ⟨h1, h2, h3, h4, h5, h6, h7⟩ := hacc
        exact ⟨h1, h2, allP_addSet _ h3 (static_mesh_materials_ok sm mat hmat), h4, h5, h6, h7⟩
    · obtain ⟨h1, h2, h3, h4, h5, h6, h7⟩ := hr
      exact ⟨allP_addSet _ h1 (Bool.eq_false_iff.mpr he), h2, h3, h4, h5, h6, h7⟩

theorem depsOk_collect_from_skeletal_mesh (skm : SkMeshObj) (r : LevelDeps) (hr : depsOk r) :
    depsOk (_collect_from_skeletal_mesh skm r) := by
  unfold _collect_from_skeletal_mesh
  by_cases he : is_engine skm.pathName = true
  · rw [if_pos he]; exact hr
  · rw [if_neg he]
    refine foldl_preserve depsOk _ _ ?_ _ ?_
    · intro acc mat hmat hacc
      refine foldl_preserve depsOk _ _ ?_ _ ?_
      · intro a tex htex ha
        obtain ⟨h1, h2, h3, h4, h5, h6, h7⟩ := ha
        exact ⟨h1, h2, h3, allP_addSet _ h4 (collect_textures_ok mat tex htex), h5, h6, h7⟩
      · obtain ⟨h1, h2, h3, h4, h5, h6, h7⟩ := hacc
        exact ⟨h1, h2, allP_addSet _ h3 (skeletal_mesh_materials_ok skm mat hmat), h4, h5, h6, h7⟩
    · obtain ⟨h1, h2, h3, h4, h5, h6, h7⟩ := hr
      exact ⟨h1, allP_addSet _ h2 (Bool.eq_false_iff.mpr he), h3, h4, h5, h6, h7⟩

theorem depsOk_collect_from_actor (act : Actor) (r : LevelDeps) (hr : depsOk r) :
    depsOk (_collect_from_actor act r) := by
  unfold _collect_from_actor
  refine foldl_preserve depsOk _ _ ?_ _ hr
  intro acc comp _ hacc
  cases comp with
  | staticMeshComp sm =>
    cases sm with
    | none => exact hacc
    | some s => exact depsOk_collect_from_static_mesh s acc hacc
  | skeletalMeshComp skAsset skLegacy =>
    cases skAsset with
    | some s => exact depsOk_collect_from_skeletal_mesh s acc hacc
    | none =>
      cases skLegacy with
      | some s => exact depsOk_collect_from_skeletal_mesh s acc hacc
      | none => exact hacc
  | audioComp snd =>
    cases snd with
    | none => exact hacc
    | some s =>
      dsimp only
      by_cases he : is_engine s.pathName = true
      · rw [if_pos he]; exact hacc
      · rw [if_neg he]
        obtain ⟨h1, h2, h3, h4, h5, h6, h7⟩ := hacc
        exact ⟨h1, h2, h3, h4, allP_addSet _ h5 (Bool.eq_false_iff.mpr he), h6, h7⟩
  | particleSystemComp t =>
    cases t with
    | none => exact hacc
    | some ps =>
      dsimp only
      by_cases he : is_engine ps.pathName = true
      · rw [if_pos he]; exact hacc
      · rw [if_neg he]
        obtain ⟨h1, h2, h3, h4, h5, h6, h7⟩ := hacc
        exact ⟨h1, h2, h3, h4, h5, h6, allP_addSet _ h7 (Bool.eq_false_iff.mpr he)⟩
  | niagaraComp t =>
    cases t with
    | none => exact hacc
    | some ns =>
      dsimp only
      by_cases he : is_engine ns.pathName = true
      · rw [if_pos he]; exact hacc
      · rw [if_neg he]
        obtain ⟨h1, h2, h3, h4, h5, h6, h7⟩ := hacc
        exact ⟨h1, h2, h3, h4, h5, h6, allP_addSet _ h7 (Bool.eq_false_iff.mpr he)⟩
  | otherComp => exact hacc

theorem depsOk_empty : depsOk emptyDeps := by
  unfold depsOk emptyDeps pathsOk
  refine ⟨?_, ?_, ?_, ?_, ?_, ?_, ?_⟩ <;> intro o ho <;> cases ho

theorem depsOk_collect_level_dependencies (env : Env) (lp : String) :
    depsOk (_collect_level_dependencies env lp) := by
  unfold _collect_level_dependencies
  cases env.levelActors lp with
  | none => exact depsOk_empty
  | some actors =>
    exact foldl_preserve depsOk _ _ (fun acc a _ h => depsOk_collect_from_actor a acc h) _
      depsOk_empty

theorem find_levels_ok (env : Env) (bp : Blueprint) :
    ∀ lv ∈ _find_levels_in_blueprint env bp, is_engine lv = false := by
  unfold _find_levels_in_blueprint
  cases bp.cdo with
  | none => intro lv h; cases h
  | some props =>
    refine foldl_preserve (fun ls : List String => ∀ lv ∈ ls, is_engine lv = false) _ _ ?_ []
      ?_
    · intro acc pv _ hacc
      dsimp only
      by_cases hu : pyStartsWith pv.1 "_" = true
      · rw [if_pos hu]; exact hacc
      · rw [if_neg hu]
        cases hv : pv.2 with
        | world pathName =>
          dsimp only
          by_cases he : is_engine (takeBeforeDot pathName) = true
          · rw [if_pos he]; exact hacc
          · rw [if_neg he]
            exact allP_append_single _ hacc (Bool.eq_false_iff.mpr he)
        | softPath path_str =>
          dsimp only
          by_cases hh : ((!(path_str == "") && pyContains path_str "World") ||
              pyEndsWith path_str "_C") = true
          · rw [if_pos hh]
            cases hc : classOf env (takeBeforeDot path_str) with
            | none => exact hacc
            | some cls =>
              cases cls with
              | world =>
                dsimp only
                by_cases he : is_engine (takeBeforeDot path_str) = true
                · rw [if_pos he]; exact hacc
                · rw [if_neg he]
                  exact allP_append_single _ hacc (Bool.eq_false_iff.mpr he)
              | material => exact hacc
              | materialInstanceConstant => exact hacc
              | staticMesh => exact hacc
              | texture => exact hacc
              | skeletalMesh => exact hacc
              | soundBase => exact hacc
              | particleSystem => exact hacc
              | blueprint => exact hacc
              | other => exact hacc
          · rw [if_neg hh]; exact hacc
        | otherValue => exact hacc
    · intro lv h; cases h

theorem collectOk_empty : collectOk emptyCollect := by
  unfold collectOk emptyCollect pathsOk
  refine ⟨?_, ?_, ?_, ?_, ?_, ?_, ?_, ?_, ?_⟩ <;> intro p hp <;> cases hp

theorem collectOk_blueprintPhase (env : Env) (bps : List Blueprint) :
    collectOk (collectBlueprintPhase env bps) := by
  unfold collectBlueprintPhase
  refine foldl_preserve collectOk _ _ ?_ _ collectOk_empty
  intro acc bp _ hacc
  dsimp only
  by_cases he : is_engine bp.path = true
  · rw [if_pos he]; exact hacc
  · rw [if_neg he]
    obtain ⟨h1, h2, h3, h4, h5, h6, h7, h8, h9⟩ := hacc
    refine ⟨allP_addSet _ h1 (Bool.eq_false_iff.mpr he), ?_, h3, h4, h5, h6, h7, h8, h9⟩
    exact allP_foldl_addSet (fun p => is_engine p = false) (fun x => x) _ _ h2
      (fun o ho => find_levels_ok env bp o ho)

theorem collectOk_addDeps (r : CollectResult) (d : LevelDeps) (hr : collectOk r)
    (hd : depsOk d) : collectOk (addDeps r d) := by
  obtain ⟨h1, h2, h3, h4, h5, h6, h7, h8, h9⟩ := hr
  obtain ⟨d1, d2, d3, d4, d5, d6, d7⟩ := hd
  exact ⟨h1, h2,
    allP_foldl_addSet _ SMeshObj.pathName _ _ h3 d1,
    allP_foldl_addSet _ SkMeshObj.pathName _ _ h4 d2,
    allP_foldl_addSet _ MatObj.pathName _ _ h5 d3,
    allP_foldl_addSet _ TexObj.pathName _ _ h6 d4,
    allP_foldl_addSet _ SoundObj.pathName _ _ h7 d5,
    h8,
    allP_foldl_addSet _ ParticleObj.pathName _ _ h9 d7⟩

theorem collectOk_levelPhase (env : Env) (r : CollectResult) (hr : collectOk r) :
    collectOk (collectLevelPhase env r) := by
  unfold collectLevelPhase
  exact foldl_preserve collectOk _ _
    (fun acc lp _ hacc => collectOk_addDeps _ _ hacc (depsOk_collect_level_dependencies env lp))
    _ hr

theorem collect_all_ok (env : Env) (root : String) :
    collectOk (collect_all_from_folder env root) := by
  unfold collect_all_from_folder
  exact collectOk_levelPhase env _ (collectOk_blueprintPhase env _)

/- ### Helper lemmas: level membership through the collector -/

theorem levels_addDeps (r : CollectResult) (d : LevelDeps) : (addDeps r d).levels = r.levels :=
  rfl

theorem levels_levelPhase (env : Env) (r : CollectResult) :
    (collectLevelPhase env r).levels = r.levels := by
  unfold collectLevelPhase
  exact foldl_preserve (fun acc : CollectResult => acc.levels = r.levels) _ _
    (fun acc lp _ h => by rw [← h]; rfl) _ rfl

theorem find_levels_step_mono (env : Env) (lv : String)
    (acc : List String) (c : String × PropValue) (h : lv ∈ acc) :
    lv ∈ (fun (levels : List String) (pv : String × PropValue) =>
      if pyStartsWith pv.1 "_" then levels
      else
        match pv.2 with
        | .world pathName =>
          if is_engine (takeBeforeDot pathName) then levels
          else levels ++ [takeBeforeDot pathName]
        | .softPath path_str =>
          if (!(path_str == "") && pyContains path_str "World") || pyEndsWith path_str "_C" then
            match classOf env (takeBeforeDot path_str) with
            | some .world =>
              if is_engine (takeBeforeDot path_str) then levels
              else levels ++ [takeBeforeDot path_str]
            | _ => levels
          else levels
        | .otherValue => levels) acc c := by
  dsimp only
  by_cases hu : pyStartsWith c.1 "_" = true
  · rw [if_pos hu]; exact h
  · rw [if_neg hu]
    cases hv : c.2 with
    | world pathName =>
      dsimp only
      by_cases he : is_engine (takeBeforeDot pathName) = true
      · rw [if_pos he]; exact h
      · rw [if_neg he]; exact List.mem_append_left _ h
    | softPath path_str =>
      dsimp only
      by_cases hh : ((!(path_str == "") && pyContains path_str "World") ||
          pyEndsWith path_str "_C") = true
      · rw [if_pos hh]
        cases hc : classOf env (takeBeforeDot path_str) with
        | none => exact h
        | some cls =>
          cases cls with
          | world =>
            dsimp only
            by_cases he : is_engine (takeBeforeDot path_str) = true
            · rw [if_pos he]; exact h
            · rw [if_neg he]; exact List.mem_append_left _ h
          | material => exact h
          | materialInstanceConstant => exact h
          | staticMesh => exact h
          | texture => exact h
          | skeletalMesh => exact h
          | soundBase => exact h
          | particleSystem => exact h
          | blueprint => exact h
          | other => exact h
      · rw [if_neg hh]; exact h
    | otherValue => exact h

theorem find_levels_mem (env : Env) (bp : Blueprint) (props : List (String × PropValue))
    (hcdo : bp.cdo = some props) (pn path_str : String)
    (hp : (pn, PropValue.softPath path_str) ∈ props)
    (hu : pyStartsWith pn "_" = false)
    (hh : ((!(path_str == "") && pyContains path_str "World") ||
      pyEndsWith path_str "_C") = true)
    (hcls : classOf env (takeBeforeDot path_str) = some .world)
    (heng : is_engine (takeBeforeDot path_str) = false) :
    takeBeforeDot path_str ∈ _find_levels_in_blueprint env bp := by
  unfold _find_levels_in_blueprint
  rw [hcdo]
  refine foldl_reach (fun ls : List String => takeBeforeDot path_str ∈ ls) _ props
    (pn, .softPath path_str) (fun acc c h => find_levels_step_mono env _ acc c h) hp ?_ []
  intro acc
  dsimp only
  rw [if_neg (by rw [hu]; exact Bool.false_ne_true), if_pos hh, hcls]
  dsimp only
  rw [if_neg (by rw [heng]; exact Bool.false_ne_true)]
  exact List.mem_append_right _ (List.mem_singleton.mpr rfl)

theorem blueprintPhase_levels_mem (env : Env) (bps : List Blueprint) (bp : Blueprint)
    (hbp : bp ∈ bps) (heng : is_engine bp.path = false) (lv : String)
    (hlv : lv ∈ _find_levels_in_blueprint env bp) :
    lv ∈ (collectBlueprintPhase env bps).levels := by
  unfold collectBlueprintPhase
  refine foldl_reach (fun r : CollectResult => lv ∈ r.levels) _ bps bp ?_ hbp ?_ emptyCollect
  · intro acc c h
    dsimp only
    by_cases he : is_engine c.path = true
    · rw [if_pos he]; exact h
    · rw [if_neg he]
      show lv ∈ (_find_levels_in_blueprint env c).foldl addSet acc.levels
      exact foldl_preserve (fun s : List String => lv ∈ s) addSet _
        (fun a b _ hm => mem_addSet_of_mem b hm) _ h
  · intro acc
    dsimp only
    rw [if_neg (by rw [heng]; exact Bool.false_ne_true)]
    show lv ∈ (_find_levels_in_blueprint env bp).foldl addSet acc.levels
    exact mem_foldl_addSet hlv acc.levels

theorem collect_levels_mem (env : Env) (root : String) (bp : Blueprint)
    (hbp : bp ∈ env.blueprintsUnder root) (heng : is_engine bp.path = false) (lv : String)
    (hlv : lv ∈ _find_levels_in_blueprint env bp) :
    lv ∈ (collect_all_from_folder env root).levels := by
  unfold collect_all_from_folder
  rw [levels_levelPhase]
  exact blueprintPhase_levels_mem env _ bp hbp heng lv hlv

/- ### Helper lemmas: move ordering -/

theorem pairwise_total {α : Type} (R : α → α → Prop) (h : ∀ a b, R a b) :
    ∀ l : List α, List.Pairwise R l := by
  intro l
  induction l with
  | nil => exact List.Pairwise.nil
  | cons a t ih => exact List.Pairwise.cons (fun b _ => h a b) ih

theorem all_rank_ge_block {n : Nat} {c : AssetCategory} (h : n ≤ catRank c)
    (l : List String) (d : String) :
    ∀ b ∈ l.map (fun p => MoveCall.mk c p d), n ≤ catRank b.cat := by
  intro b hb
  rcases List.mem_map.mp hb with ⟨p, _, rfl⟩
  exact h

theorem all_rank_ge_append {n : Nat} {l1 l2 : List MoveCall}
    (h1 : ∀ b ∈ l1, n ≤ catRank b.cat) (h2 : ∀ b ∈ l2, n ≤ catRank b.cat) :
    ∀ b ∈ l1 ++ l2, n ≤ catRank b.cat := by
  intro b hb
  rcases List.mem_append.mp hb with h | h
  · exact h1 b h
  · exact h2 b h

theorem all_rank_weaken {n m : Nat} {l : List MoveCall} (hnm : n ≤ m)
    (h : ∀ b ∈ l, m ≤ catRank b.cat) : ∀ b ∈ l, n ≤ catRank b.cat :=
  fun b hb => Nat.le_trans hnm (h b hb)

theorem pairwise_block_append (c : AssetCategory) (l : List String) (d : String)
    (rest : List MoveCall) (hrest : List.Pairwise rankLe rest)
    (hcross : ∀ b ∈ rest, catRank c ≤ catRank b.cat) :
    List.Pairwise rankLe (l.map (fun p => MoveCall.mk c p d) ++ rest) := by
  rw [List.pairwise_append]
  refine ⟨?_, hrest, ?_⟩
  · rw [List.pairwise_map]
    exact pairwise_total _ (fun a b => Nat.le_refl _) l
  · intro a ha b hb
    rcases List.mem_map.mp ha with ⟨p, _, rfl⟩
    exact hcross b hb

theorem pairwise_block (c : AssetCategory) (l : List String) (d : String) :
    List.Pairwise rankLe (l.map (fun p => MoveCall.mk c p d)) := by
  rw [List.pairwise_map]
  exact pairwise_total _ (fun a b => Nat.le_refl _) l

theorem run_moves_sorted (env : Env) (source_root : String) :
    List.Pairwise rankLe (run env source_root).moves := by
  unfold run
  by_cases h1 : (!(pyStartsWith source_root "/Game")) = true
  · rw [if_pos h1]
    exact List.Pairwise.nil
  · rw [if_neg h1]
    dsimp only
    by_cases h2 : (collect_all_from_folder env source_root).blueprints.length = 0
    · rw [if_pos h2]
      exact List.Pairwise.nil
    · rw [if_neg h2]
      dsimp only
      simp only [List.append_assoc]
      have g7 := all_rank_ge_block (n := 7) (c := .blueprints) (Nat.le_refl 7)
        (collect_all_from_folder env source_root).blueprints
        (_pkg_join [source_root, "Blueprints"])
      have h7 := pairwise_block .blueprints
        (collect_all_from_folder env source_root).blueprints
        (_pkg_join [source_root, "Blueprints"])
      have g6 := all_rank_ge_append
        (all_rank_ge_block (n := 6) (c := .levels) (by decide)
          (collect_all_from_folder env source_root).levels
          (_pkg_join [source_root, "Blueprints"]))
        (all_rank_weaken (by decide) g7)
      have h6 := pairwise_block_append .levels
        (collect_all_from_folder env source_root).levels
        (_pkg_join [source_root, "Blueprints"]) _ h7 (all_rank_weaken (by decide) g7)
      have g5 := all_rank_ge_append
        (all_rank_ge_block (n := 5) (c := .particles) (by decide)
          (collect_all_from_folder env source_root).particles
          (_pkg_join [source_root, "Particles"]))
        (all_rank_weaken (by decide) g6)
      have h5 := pairwise_block_append .particles
        (collect_all_from_folder env source_root).particles
        (_pkg_join [source_root, "Particles"]) _ h6 (all_rank_weaken (by decide) g6)
      have g4 := all_rank_ge_append
        (all_rank_ge_block (n := 4) (c := .sounds) (by decide)
          (collect_all_from_folder env source_root).sounds
          (_pkg_join [source_root, "Sounds"]))
        (all_rank_weaken (by decide) g5)
      have h4 := pairwise_block_append .sounds
        (collect_all_from_folder env source_root).sounds
        (_pkg_join [source_root, "Sounds"]) _ h5 (all_rank_weaken (by decide) g5)
      have g3 := all_rank_ge_append
        (all_rank_ge_block (n := 3) (c := .skeletalMeshes) (by decide)
          (collect_all_from_folder env source_root).skeletal_meshes
          (_pkg_join [source_root, "Meshes"]))
        (all_rank_weaken (by decide) g4)
      have h3 := pairwise_block_append .skeletalMeshes
        (collect_all_from_folder env source_root).skeletal_meshes
        (_pkg_join [source_root, "Meshes"]) _ h4 (all_rank_weaken (by decide) g4)
      have g2 := all_rank_ge_append
        (all_rank_ge_block (n := 2) (c := .staticMeshes) (by decide)
          (collect_all_from_folder env source_root).static_meshes
          (_pkg_join [source_root, "Meshes"]))
        (all_rank_weaken (by decide) g3)
      have h2' := pairwise_block_append .staticMeshes
        (collect_all_from_folder env source_root).static_meshes
        (_pkg_join [source_root, "Meshes"]) _ h3 (all_rank_weaken (by decide) g3)
      have g1 := all_rank_ge_append
        (all_rank_ge_block (n := 1) (c := .materials) (by decide)
          (collect_all_from_folder env source_root).materials
          (_pkg_join [source_root, "Materials"]))
        (all_rank_weaken (by decide) g2)
      have h1' := pairwise_block_append .materials
        (collect_all_from_folder env source_root).materials
        (_pkg_join [source_root, "Materials"]) _ h2' (all_rank_weaken (by decide) g2)
      exact pairwise_block_append .textures
        (collect_all_from_folder env source_root).textures
        (_pkg_join [source_root, "Textures"]) _ h1' (all_rank_weaken (by decide) g1)

/- ### Helper lemmas: name normalization -/

theorem get_asset_name_of_prefixed (cls : AssetClass) (name : String)
    (h : pyStartsWith name (kindFor cls) = true) : _get_asset_name cls name = name := by
  have h0 : pyFind name (kindFor cls) = 0 := (pyFind_zero_iff name (kindFor cls)).mpr h
  simp [_get_asset_name, h0]

theorem get_asset_name_idem (cls : AssetClass) (name : String) :
    _get_asset_name cls (_get_asset_name cls name) = _get_asset_name cls name := by
  by_cases h0 : pyFind name (kindFor cls) = 0
  · have h1 : _get_asset_name cls name = name := by simp [_get_asset_name, h0]
    rw [h1]
    exact h1
  · have h1 : _get_asset_name cls name = kindFor cls ++ name := by simp [_get_asset_name, h0]
    rw [h1]
    exact get_asset_name_of_prefixed cls _ (pyStartsWith_append _ _)

/- ### The claims -/

/-- C1, counterexample: in `envVillage` the collector inspects `bpVillage`,
whose soft-path property `target_map` resolves to the non-engine Level
`/Game/Maps/Village`, yet the collected `levels` set is empty, because the
path string neither contains `"World"` nor ends with `"_C"`. -/
theorem c1_counterexample :
    bpVillage ∈ envVillage.blueprintsUnder "/Game/Prj" ∧
    bpVillage.cdo = some [("target_map", PropValue.softPath "/Game/Maps/Village.Village")] ∧
    classOf envVillage (takeBeforeDot "/Game/Maps/Village.Village") = some AssetClass.world ∧
    is_engine (takeBeforeDot "/Game/Maps/Village.Village") = false ∧
    (collect_all_from_folder envVillage "/Game/Prj").levels = [] := by
  refine ⟨?_, ?_, ?_, ?_, ?_⟩ <;> decide

/-- C1 (amended): for every Blueprint inspected by the collector, every
non-underscore-named soft-path property of its class default object whose
target resolves to a non-engine Level, and whose path string passes the
source's heuristic (non-empty and containing `"World"`, or ending with
`"_C"`), has that Level's package path included in the collected `levels`
set. -/
theorem c1_soft_level_collected (env : Env) (root : String) (bp : Blueprint)
    (props : List (String × PropValue)) (pn path_str : String)
    (hbp : bp ∈ env.blueprintsUnder root) (hbeng : is_engine bp.path = false)
    (hcdo : bp.cdo = some props) (hp : (pn, PropValue.softPath path_str) ∈ props)
    (hu : pyStartsWith pn "_" = false)
    (hh : ((!(path_str == "") && pyContains path_str "World") ||
      pyEndsWith path_str "_C") = true)
    (hcls : classOf env (takeBeforeDot path_str) = some .world)
    (heng : is_engine (takeBeforeDot path_str) = false) :
    takeBeforeDot path_str ∈ (collect_all_from_folder env root).levels :=
  collect_levels_mem env root bp hbp hbeng _
    (find_levels_mem env bp props hcdo pn path_str hp hu hh hcls heng)

/-- C1, witness: the amended claim at the concrete state `envWorldMap`. -/
theorem c1_witness :
    takeBeforeDot "/Game/Maps/WorldMap.WorldMap" ∈
      (collect_all_from_folder envWorldMap "/Game/Prj").levels :=
  c1_soft_level_collected envWorldMap "/Game/Prj" bpWorldMap
    [("target_map", PropValue.softPath "/Game/Maps/WorldMap.WorldMap")] "target_map"
    "/Game/Maps/WorldMap.WorldMap" (by decide) (by decide) (by decide) (by decide)
    (by decide) (by decide) (by decide) (by decide)

/-- C2, code-bug evidence: moving the texture `Rock` from `envRock` succeeds
and invokes the rename with new name `T_Rock` (prefix normalization), yet the
function's return value is `/Game/Out/Rock`, built from the original name —
not the path the asset was renamed to. -/
theorem c2_return_path_mismatch :
    _move_asset envRock "/Game/Src/Rock" "/Game/Out" =
      ⟨some "/Game/Out/Rock", true, some ("/Game/Out", "T_Rock")⟩ ∧
    "/Game/Out/Rock" ≠ "/Game/Out" ++ "/" ++ "T_Rock" := by
  refine ⟨?_, ?_⟩ <;> decide

/-- C3, counterexample: the map from existing-name sets to chosen names is
not injective — the empty destination and a destination holding `B` both
resolve `A` to `A`; moreover two different requests (`A` and `A_002`) against
the same existing set `{A}` both choose `A_002`. -/
theorem c3_counterexample :
    _unique_name_in ⟨[], true⟩ "/Game/D" "A" = some "A" ∧
    _unique_name_in ⟨[⟨"/Game/D/B", "B", AssetClass.other⟩], true⟩ "/Game/D" "A" = some "A" ∧
    (⟨[], true⟩ : MoveEnv).assets ≠
      (⟨[⟨"/Game/D/B", "B", AssetClass.other⟩], true⟩ : MoveEnv).assets ∧
    _unique_name_in ⟨[⟨"/Game/D/A", "A", AssetClass.other⟩], true⟩ "/Game/D" "A" =
      some "A_002" ∧
    _unique_name_in ⟨[⟨"/Game/D/A", "A", AssetClass.other⟩], true⟩ "/Game/D" "A_002" =
      some "A_002" := by
  refine ⟨?_, ?_, ?_, ?_, ?_⟩ <;> decide

/-- C3 (amended): when the desired name already exists at the destination,
name resolution returns the desired name extended with a zero-padded numeric
suffix (index at least 2) that does not collide with any existing asset at
the destination.  (The mapping from existing sets to chosen names is not
injective; what holds is freshness against the set resolved against.) -/
theorem c3_collision_resolution (env : MoveEnv) (dst d : String)
    (h : doesAssetExist env (dst ++ "/" ++ d) = true) :
    ∃ i, 2 ≤ i ∧ _unique_name_in env dst d = some (d ++ "_" ++ pad3 i) ∧
      doesAssetExist env (dst ++ "/" ++ (d ++ "_" ++ pad3 i)) = false := by
  have hs := unique_name_in_isSome env dst d
  cases hr : _unique_name_in env dst d with
  | none => rw [hr] at hs; cases hs
  | some r =>
    obtain ⟨hfree, hshape⟩ := unique_name_in_spec env dst d r hr
    rcases hshape with rfl | ⟨j, hj, rfl⟩
    · rw [h] at hfree
      cases hfree
    · exact ⟨j, hj, rfl, hfree⟩

/-- C3, witness: the amended claim at a destination already holding `A`. -/
theorem c3_witness :
    ∃ i, 2 ≤ i ∧
      _unique_name_in ⟨[⟨"/Game/W/A", "A", AssetClass.other⟩], true⟩ "/Game/W" "A" =
        some ("A" ++ "_" ++ pad3 i) ∧
      doesAssetExist ⟨[⟨"/Game/W/A", "A", AssetClass.other⟩], true⟩
        ("/Game/W" ++ "/" ++ ("A" ++ "_" ++ pad3 i)) = false :=
  c3_collision_resolution ⟨[⟨"/Game/W/A", "A", AssetClass.other⟩], true⟩ "/Game/W" "A"
    (by decide)

/-- C4: no engine/script path ever appears in any collected category set, and
the mover never invokes the rename API on an engine/script path. -/
theorem c4_engine_paths_excluded :
    (∀ (env : Env) (root p : String),
      p ∈ allPaths (collect_all_from_folder env root) → is_engine p = false) ∧
    (∀ (menv : MoveEnv) (p dst : String), is_engine p = true →
      (_move_asset menv p dst).renamed = false) := by
  constructor
  · intro env root p hp
    obtain ⟨h1, h2, h3, h4, h5, h6, h7, h8, h9⟩ := collect_all_ok env root
    simp only [allPaths, List.mem_append] at hp
    rcases hp with ((((((((hp | hp) | hp) | hp) | hp) | hp) | hp) | hp) | hp)
    · exact h1 p hp
    · exact h2 p hp
    · exact h3 p hp
    · exact h4 p hp
    · exact h5 p hp
    · exact h6 p hp
    · exact h7 p hp
    · exact h8 p hp
    · exact h9 p hp
  · intro menv p dst hp
    unfold _move_asset
    cases findAssetData menv p with
    | none => rfl
    | some ad =>
      dsimp only
      rw [if_pos hp]

/-- C4, witness: a collected project path is non-engine, and a direct
engine-path move performs no rename. -/
theorem c4_witness :
    is_engine "/Game/P/Y" = false ∧
    (_move_asset ⟨[], true⟩ "/Engine/BasicShapes/Cube" "/Game/Out").renamed = false := by
  constructor
  · exact c4_engine_paths_excluded.1 envScenario "/Game/P" "/Game/P/Y" (by decide)
  · exact c4_engine_paths_excluded.2 ⟨[], true⟩ "/Engine/BasicShapes/Cube" "/Game/Out"
      (by decide)

/-- C5: every `run` issues its moves in non-decreasing category rank
(textures, materials, static meshes, skeletal meshes, sounds, particles,
levels, blueprints last); in the one-Blueprint/one-Level/one-actor scenario
the trace is exactly texture `Y`, material `X`, mesh `M`, the Level, the
Blueprint. -/
theorem c5_move_order :
    (∀ (env : Env) (source_root : String), List.Pairwise rankLe (run env source_root).moves) ∧
    (run envScenario "/Game/P").moves =
      [⟨.textures, "/Game/P/Y", "/Game/P/Textures"⟩,
       ⟨.materials, "/Game/P/X", "/Game/P/Materials"⟩,
       ⟨.staticMeshes, "/Game/P/M", "/Game/P/Meshes"⟩,
       ⟨.levels, "/Game/P/L1", "/Game/P/Blueprints"⟩,
       ⟨.blueprints, "/Game/P/BP1.BP1", "/Game/P/Blueprints"⟩] :=
  ⟨run_moves_sorted, by decide⟩

/-- C6: a root not starting with `/Game` makes `run` report an error and
return zero with no directories created and no move invoked. -/
theorem c6_invalid_root (env : Env) (source_root : String)
    (h : pyStartsWith source_root "/Game" = false) :
    run env source_root = ⟨0, true, [], []⟩ := by
  unfold run
  rw [if_pos (by rw [h]; rfl)]

/-- C6, witness: the claim at the concrete root `/Content/Stuff`. -/
theorem c6_witness : run envNoBlueprints "/Content/Stuff" = ⟨0, true, [], []⟩ :=
  c6_invalid_root envNoBlueprints "/Content/Stuff" (by decide)

/-- C7: when the registry lists no Blueprints under the folder, the collector
returns all nine category sets empty and `run` issues no move and returns 0. -/
theorem c7_no_blueprints (env : Env) (root : String)
    (h : env.blueprintsUnder root = []) :
    collect_all_from_folder env root = emptyCollect ∧
    (run env root).moves = [] ∧ (run env root).ret = 0 := by
  have hc : collect_all_from_folder env root = emptyCollect := by
    unfold collect_all_from_folder collectBlueprintPhase
    rw [h]
    rfl
  refine ⟨hc, ?_, ?_⟩ <;>
  · unfold run
    by_cases hg : (!(pyStartsWith root "/Game")) = true
    · rw [if_pos hg]
    · rw [if_neg hg]
      dsimp only
      rw [hc]
      rfl

/-- C7, witness: the claim at the concrete state `envNoBlueprints`. -/
theorem c7_witness :
    collect_all_from_folder envNoBlueprints "/Game/P" = emptyCollect ∧
    (run envNoBlueprints "/Game/P").moves = [] ∧ (run envNoBlueprints "/Game/P").ret = 0 :=
  c7_no_blueprints envNoBlueprints "/Game/P" (by decide)

/-- C8: a name already carrying its type-derived prefix at position zero is
returned unchanged, and normalization is idempotent (`T_Rock` is never turned
into `T_T_Rock`). -/
theorem c8_prefix_idempotent (cls : AssetClass) (name : String) :
    (pyStartsWith name (kindFor cls) = true → _get_asset_name cls name = name) ∧
    _get_asset_name cls (_get_asset_name cls name) = _get_asset_name cls name :=
  ⟨get_asset_name_of_prefixed cls name, get_asset_name_idem cls name⟩

/-- C8, witness: `T_Rock` for a texture is left unchanged. -/
theorem c8_witness : _get_asset_name AssetClass.texture "T_Rock" = "T_Rock" :=
  (c8_prefix_idempotent .texture "T_Rock").1 (by decide)

/-- C9: collision resolution returns either the desired name itself or the
desired name with an underscore and a zero-padded index at least 2; the
suffix `_001` is never produced. -/
theorem c9_suffix_shape (env : MoveEnv) (dst d r : String)
    (h : _unique_name_in env dst d = some r) :
    (r = d ∨ ∃ i, 2 ≤ i ∧ r = d ++ "_" ++ pad3 i) ∧ r ≠ d ++ "_001" := by
  obtain ⟨hfree, hshape⟩ := unique_name_in_spec env dst d r h
  refine ⟨hshape, ?_⟩
  rcases hshape with rfl | ⟨j, hj, rfl⟩
  · intro hcon
    have hlen := congrArg String.length hcon
    rw [String.length_append] at hlen
    have h4 : ("_001" : String).length = 4 := rfl
    omega
  · intro hcon
    have hu : ("_001" : String) = "_" ++ "001" := by decide
    have hassoc : d ++ "_001" = (d ++ "_") ++ "001" := by
      rw [hu, String.append_assoc]
    rw [hassoc] at hcon
    have hpad : pad3 j = "001" := str_append_cancel_left hcon
    have hj1 : j = 1 := pad3_inj (by rw [hpad]; decide)
    omega

/-- C9, witness: the claim at a destination already holding `A`. -/
theorem c9_witness :
    ("A_002" = "A" ∨ ∃ i, 2 ≤ i ∧ "A_002" = "A" ++ "_" ++ pad3 i) ∧
      "A_002" ≠ "A" ++ "_001" :=
  c9_suffix_shape ⟨[⟨"/Game/W/A", "A", AssetClass.other⟩], true⟩ "/Game/W" "A" "A_002"
    (by decide)

/-- C10: assets whose class is none of material, material instance, static
mesh or texture keep their original name — no prefix is added. -/
theorem c10_no_prefix_other_types (cls : AssetClass) (name : String)
    (h : cls ≠ .material ∧ cls ≠ .materialInstanceConstant ∧ cls ≠ .staticMesh ∧
      cls ≠ .texture) :
    _get_asset_name cls name = name := by
  obtain ⟨h1, h2, h3, h4⟩ := h
  have hk : kindFor cls = "" := by
    cases cls
    · exact absurd rfl h1
    · exact absurd rfl h2
    · exact absurd rfl h3
    · exact absurd rfl h4
    all_goals rfl
  have hp : pyStartsWith name (kindFor cls) = true := by
    rw [hk]
    exact pyStartsWith_empty name
  exact get_asset_name_of_prefixed cls name hp

/-- C10, witness: a sound asset's name is left unchanged. -/
theorem c10_witness : _get_asset_name AssetClass.soundBase "Explosion" = "Explosion" :=
  c10_no_prefix_other_types .soundBase "Explosion" (by decide)
